import Mathlib

/-!
Verification of the hypercc calibration–detection–quantification pipeline
(`src/hypercc/calibration.py`, `src/hypercc/workflow.py`, `src/hypercc/main.py`)
against its natural-language specification.

Numeric arrays are embedded over the reals; a 3D (time, lat, lon) voxel grid
is a function `Nat → Nat → Nat → ℝ` (or a `Coord3 → _` function) together with
explicit dimensions.  Sub-computations supplied by modules outside the three
source files (the Gaussian smoother and Sobel filter of `filters.py`, the
weighted quantile estimator of `stats.py`, and the compiled `hyper_canny`
kernels) enter either as parameters or, where a claim depends on their
behaviour, as definitions modelled from the spec.
-/

set_option maxRecDepth 10000

/-- A voxel coordinate `(t, y, x)` in the (time, lat, lon) lattice. -/
abbrev Coord3 := Nat × Nat × Nat

/-- The CalibrationRecord of the spec: five-element quartile sequences
(min, 1st, median, 3rd, max) for time, distance, magnitude and gamma,
as returned by `calibrate_sobel` (calibration.py, lines 40–45). -/
structure Calibration where
  time : Fin 5 → ℝ
  distance : Fin 5 → ℝ
  magnitude : Fin 5 → ℝ
  gamma : Fin 5 → ℝ

/-- The record construction at the end of `calibrate_sobel`
(calibration.py, lines 36–45).  The three weighted quartile sequences
`ft`, `fx`, `fm` (outputs of `weighted_quartiles` on the ratios
`sbc[0]²/sbc[3]²`, `(sbc[1]²+sbc[2]²)/sbc[3]²` and `1/sbc[3]`) are
parameters, since `weighted_quartiles` lives in the external `stats.py`;
the record assembly `time = sqrt ft`, `distance = sqrt fx`,
`magnitude = fm`, `gamma = sqrt (ft / fx)` follows the source verbatim. -/
noncomputable def calibrate_sobel_record (ft fx fm : Fin 5 → ℝ) : Calibration where
  time := fun i => Real.sqrt (ft i)
  distance := fun i => Real.sqrt (fx i)
  magnitude := fm
  gamma := fun i => Real.sqrt (ft i / fx i)

/-- The two threshold reference names accepted by `get_thresholds`
(workflow.py, lines 188–191). -/
inductive ThresholdRef where
  | piControl3
  | piControlMax
deriving DecidableEq

/-- The quartile index a reference name selects in `ref_values`
(workflow.py, lines 188–191): index 3 for pi-control-3, 4 for
pi-control-max. -/
def refIndex : ThresholdRef → Fin 5
  | ThresholdRef.piControl3 => 3
  | ThresholdRef.piControlMax => 4

/-- The slice of the argparse configuration (main.py, lines 95–116) that the
thresholding code reads: the calibration quartile already resolved to its
index in `['min','1st','median','3rd','max']`, the two threshold reference
names, and the two threshold fractions. -/
structure Config where
  calibration_quartile : Fin 5
  lower_threshold_ref : ThresholdRef
  upper_threshold_ref : ThresholdRef
  lower_threshold_frac : ℝ
  upper_threshold_frac : ℝ

/-- `get_calibration_factor` (workflow.py, lines 137–143):
`gamma = calibration['gamma'][quartile]`. -/
noncomputable def get_calibration_factor (cfg : Config) (cal : Calibration) : ℝ :=
  cal.gamma cfg.calibration_quartile

/-- The combined magnitude quartile sequence of `get_thresholds`
(workflow.py, lines 185–186):
`mag_quartiles = sqrt((calibration['distance'] * gamma)**2 + calibration['time']**2)`. -/
noncomputable def mag_quartiles (cfg : Config) (cal : Calibration) (i : Fin 5) : ℝ :=
  Real.sqrt ((cal.distance i * get_calibration_factor cfg cal) ^ 2 + cal.time i ^ 2)

/-- The `ref_values` lookup of `get_thresholds` (workflow.py, lines 188–194). -/
noncomputable def ref_value (cfg : Config) (cal : Calibration) : ThresholdRef → ℝ
  | ThresholdRef.piControl3 => mag_quartiles cfg cal 3
  | ThresholdRef.piControlMax => mag_quartiles cfg cal 4

/-- `get_thresholds` (workflow.py, lines 183–199): returns
`(ref_lower * frac_lower, ref_upper * frac_upper)`. -/
noncomputable def get_thresholds (cfg : Config) (cal : Calibration) : ℝ × ℝ :=
  (ref_value cfg cal cfg.lower_threshold_ref * cfg.lower_threshold_frac,
   ref_value cfg cal cfg.upper_threshold_ref * cfg.upper_threshold_frac)

/-- C1: for every CalibrationRecord and configuration, `get_thresholds`
returns `(mag[j_lo] * f_lo, mag[j_up] * f_up)` with
`mag[i] = sqrt((distance[i]*gamma)² + time[i]²)`, `gamma` the selected
quartile of the calibration gamma sequence, `j = 3` for pi-control-3 and
`j = 4` for pi-control-max; the upper reference is selected independently
of the lower one, and choosing the same reference for both makes the two
reference values equal before the fractions are applied. -/
theorem get_thresholds_spec (cfg : Config) (cal : Calibration) :
    get_thresholds cfg cal =
      (Real.sqrt ((cal.distance (refIndex cfg.lower_threshold_ref) *
            cal.gamma cfg.calibration_quartile) ^ 2 +
          cal.time (refIndex cfg.lower_threshold_ref) ^ 2) *
        cfg.lower_threshold_frac,
       Real.sqrt ((cal.distance (refIndex cfg.upper_threshold_ref) *
            cal.gamma cfg.calibration_quartile) ^ 2 +
          cal.time (refIndex cfg.upper_threshold_ref) ^ 2) *
        cfg.upper_threshold_frac) ∧
    (cfg.lower_threshold_ref = cfg.upper_threshold_ref →
      ref_value cfg cal cfg.lower_threshold_ref =
        ref_value cfg cal cfg.upper_threshold_ref) := by
  constructor
  · cases h1 : cfg.lower_threshold_ref <;> cases h2 : cfg.upper_threshold_ref <;>
      simp [get_thresholds, ref_value, mag_quartiles, get_calibration_factor,
        refIndex, h1, h2]
  · intro h
    rw [h]

/-- Witness for C1 at a concrete configuration and calibration record,
with equal lower and upper references. -/
theorem get_thresholds_spec_witness :
    (get_thresholds
        (Config.mk 2 ThresholdRef.piControlMax ThresholdRef.piControlMax 1 1)
        (Calibration.mk (fun _ => 1) (fun _ => 0) (fun _ => 1) (fun _ => 1)) =
      (Real.sqrt ((0 * 1) ^ 2 + 1 ^ 2) * 1, Real.sqrt ((0 * 1) ^ 2 + 1 ^ 2) * 1)) ∧
    (ref_value
        (Config.mk 2 ThresholdRef.piControlMax ThresholdRef.piControlMax 1 1)
        (Calibration.mk (fun _ => 1) (fun _ => 0) (fun _ => 1) (fun _ => 1))
        ThresholdRef.piControlMax =
      ref_value
        (Config.mk 2 ThresholdRef.piControlMax ThresholdRef.piControlMax 1 1)
        (Calibration.mk (fun _ => 1) (fun _ => 0) (fun _ => 1) (fun _ => 1))
        ThresholdRef.piControlMax) := by
  have h := get_thresholds_spec
    (Config.mk 2 ThresholdRef.piControlMax ThresholdRef.piControlMax 1 1)
    (Calibration.mk (fun _ => 1) (fun _ => 0) (fun _ => 1) (fun _ => 1))
  exact ⟨h.1, h.2 rfl⟩

/-- C6: for every record returned by the calibrator, the identity
`gamma i = sqrt(time i ² / distance i ²)` holds exactly (over the reals)
for all five quartile indices, given that the input quantile sequences are
non-negative (they are quantiles of the non-negative ratios formed in
calibration.py, lines 22–31). -/
theorem calibrate_sobel_gamma_identity (ft fx fm : Fin 5 → ℝ)
    (hft : ∀ i, 0 ≤ ft i) (hfx : ∀ i, 0 ≤ fx i) (i : Fin 5) :
    (calibrate_sobel_record ft fx fm).gamma i =
      Real.sqrt ((calibrate_sobel_record ft fx fm).time i ^ 2 /
        (calibrate_sobel_record ft fx fm).distance i ^ 2) := by
  simp [calibrate_sobel_record, Real.sq_sqrt (hft i), Real.sq_sqrt (hfx i)]

/-- Witness for C6 at the concrete quantile sequences `ft = 0`, `fx = 1`. -/
theorem calibrate_sobel_gamma_identity_witness :
    (∀ i : Fin 5, (0 : ℝ) ≤ (fun _ : Fin 5 => (0 : ℝ)) i) ∧
    (∀ i : Fin 5, (0 : ℝ) ≤ (fun _ : Fin 5 => (1 : ℝ)) i) ∧
    (calibrate_sobel_record (fun _ => 0) (fun _ => 1) (fun _ => 0)).gamma 0 =
      Real.sqrt
        ((calibrate_sobel_record (fun _ => 0) (fun _ => 1) (fun _ => 0)).time 0 ^ 2 /
         (calibrate_sobel_record (fun _ => 0) (fun _ => 1) (fun _ => 0)).distance 0 ^ 2) :=
  ⟨fun _ => le_refl 0, fun _ => zero_le_one,
   calibrate_sobel_gamma_identity (fun _ => 0) (fun _ => 1) (fun _ => 0)
     (fun _ => le_refl 0) (fun _ => zero_le_one) 0⟩

/-- The Python error raised by a call whose positional argument count does
not match the callee's parameter count. -/
inductive PyError where
  | typeError
deriving DecidableEq

/-- Number of parameters of `calibrate_sobel`
(`def calibrate_sobel(box, data, delta_t, delta_d)`, calibration.py,
line 10). -/
def calibrate_sobel_param_count : Nat := 4

/-- Number of positional arguments at the call site inside
`compute_calibration`
(`calibrate_sobel(quartile, box, smooth_data, sobel_delta_t, sobel_delta_x)`,
workflow.py, line 132). -/
def compute_calibration_arg_count : Nat := 5

/-- Python call semantics for a function with no default or variadic
parameters: the call succeeds only when the positional argument count
equals the parameter count, and raises `TypeError` otherwise. -/
def checkCall {α : Type} (params args : Nat) (result : α) : Except PyError α :=
  if args = params then Except.ok result else Except.error PyError.typeError

/-- `compute_calibration` (workflow.py, lines 110–134), focused on its call
of `calibrate_sobel` at line 132: the smoothing that produces
`smooth_data` is external (`filters.py`), so the quantile sequences the
callee would produce enter as parameters; the call itself passes five
positional arguments to a four-parameter function. -/
noncomputable def compute_calibration (ft fx fm : Fin 5 → ℝ) : Except PyError Calibration :=
  checkCall calibrate_sobel_param_count compute_calibration_arg_count
    (calibrate_sobel_record ft fx fm)

/-- C2: for every configuration and control data set, `compute_calibration`
raises a TypeError before producing any CalibrationRecord, because it
passes five positional arguments to `calibrate_sobel`, which accepts only
four parameters. -/
theorem compute_calibration_type_error (ft fx fm : Fin 5 → ℝ) :
    compute_calibration ft fx fm = Except.error PyError.typeError := by
  simp [compute_calibration, checkCall, calibrate_sobel_param_count,
    compute_calibration_arg_count]

/-- Raster-scan order of all voxels of an `nt × ny × nx` grid (time outermost,
longitude innermost), the iteration order of `numpy`/`scipy` array scans. -/
def allCoords (nt ny nx : Nat) : List Coord3 :=
  (List.range nt).flatMap fun t =>
    (List.range ny).flatMap fun y =>
      (List.range nx).map fun x => (t, y, x)

/-- Two indices differ by at most one. -/
def near (i j : Nat) : Bool :=
  decide (i ≤ j + 1) && decide (j ≤ i + 1)

/-- Full 3D 26-connectivity, the structuring element
`ndimage.generate_binary_structure(3, 3)` used by `label_regions`
(workflow.py, line 486): two distinct voxels are adjacent when every
coordinate differs by at most one. -/
def adjacent26 (a b : Coord3) : Bool :=
  !decide (a = b) && near a.1 b.1 && near a.2.1 b.2.1 && near a.2.2 b.2.2

/-- One breadth step of connected growth: add every foreground voxel adjacent
to the current set. -/
def expandOnce (fg : List Coord3) (s : List Coord3) : List Coord3 :=
  s ++ fg.filter fun c => !s.contains c && s.any fun d => adjacent26 d c

/-- Iterated connected growth with explicit fuel. -/
def expandComponent (fg : List Coord3) : Nat → List Coord3 → List Coord3
  | 0, s => s
  | n + 1, s => expandComponent fg n (expandOnce fg s)

/-- The 26-connected component of `c` inside the foreground voxel list `fg`
(fuel `fg.length` suffices: each useful step adds at least one voxel). -/
def component (fg : List Coord3) (c : Coord3) : List Coord3 :=
  expandComponent fg fg.length [c]

/-- One step of `scipy.ndimage.label`-style labeling: on meeting a not yet
labeled foreground voxel, assign the next label to its whole component. -/
def labelStep (fg : List Coord3) (acc : (Coord3 → Nat) × Nat) (c : Coord3) :
    (Coord3 → Nat) × Nat :=
  if acc.1 c ≠ 0 then acc
  else
    (fun d => if (component fg c).contains d then acc.2 + 1 else acc.1 d,
     acc.2 + 1)

/-- `ndimage.label(mask, generate_binary_structure(3, 3))`
(workflow.py, lines 485–486): connected-component labeling under
26-connectivity; returns the label field (0 on background) and the number
of components, numbering components in order of first raster-scan
encounter. -/
def ndimage_label (nt ny nx : Nat) (mask : Coord3 → Bool) :
    (Coord3 → Nat) × Nat :=
  ((allCoords nt ny nx).filter mask).foldl
    (labelStep ((allCoords nt ny nx).filter mask)) (fun _ => 0, 0)

/-- `(labels == x).sum()` (workflow.py, line 488): the number of voxels
carrying label `x`. -/
def countLabel (nt ny nx : Nat) (lab : Coord3 → Nat) (x : Nat) : Nat :=
  ((allCoords nt ny nx).filter fun c => lab c = x).length

/-- The `big_enough` list of `label_regions` (workflow.py, lines 487–488):
labels in `range(1, n_features + 1)` whose voxel count exceeds `min_size`. -/
def big_enough (nt ny nx : Nat) (lab : Coord3 → Nat) (n min_size : Nat) :
    List Nat :=
  ((List.range n).map fun x => x + 1).filter fun x =>
    min_size < countLabel nt ny nx lab x

/-- The dictionary returned by `label_regions` (workflow.py, lines 489–493). -/
structure LabelResult where
  n_features : Nat
  regions : Coord3 → Nat
  labels : List Nat

/-- `label_regions` (workflow.py, lines 484–493): label the mask, keep the
labels of components with more than `min_size` voxels
(`np.where(np.isin(labels, big_enough), labels, 0)`), zero the rest, and
return the raw component count as `n_features`. -/
def label_regions (nt ny nx : Nat) (mask : Coord3 → Bool) (min_size : Nat) :
    LabelResult :=
  let lab := (ndimage_label nt ny nx mask).1
  let n := (ndimage_label nt ny nx mask).2
  { n_features := n
    regions := fun c =>
      if (big_enough nt ny nx lab n min_size).contains (lab c) then lab c
      else 0
    labels := big_enough nt ny nx lab n min_size }

/-- A 4 × 1 × 1 mask with foreground at times 0, 1, 3: two 26-connected
components, of sizes 2 and 1. -/
def maskTwoComponents : Coord3 → Bool :=
  fun c => c.1 == 0 || c.1 == 1 || c.1 == 3

/-- C3, counterexample: on a 4 × 1 × 1 grid with foreground at times
0, 1 and 3 and minimum size 1, exactly one component (the pair {0, 1})
has more than 1 voxel, yet `label_regions` reports `n_features = 2`:
`n_features` is the raw component count, not the count of components
exceeding the minimum size. -/
theorem label_regions_n_features_counterexample :
    (label_regions 4 1 1 maskTwoComponents 1).n_features = 2 ∧
    (big_enough 4 1 1 (ndimage_label 4 1 1 maskTwoComponents).1
        (ndimage_label 4 1 1 maskTwoComponents).2 1).length = 1 := by
  constructor
  · decide
  · decide

/-- Labels handed out by `labelStep` never exceed the running component
counter. -/
theorem labelStep_bound (fg : List Coord3) (acc : (Coord3 → Nat) × Nat)
    (h : ∀ d, acc.1 d ≤ acc.2) (c : Coord3) :
    ∀ d, (labelStep fg acc c).1 d ≤ (labelStep fg acc c).2 := by
  intro d
  unfold labelStep
  split
  · exact h d
  · dsimp only
    split
    · exact le_refl _
    · exact le_trans (h d) (Nat.le_succ _)

/-- The label bound is preserved along the whole raster scan. -/
theorem foldl_labelStep_bound (fg l : List Coord3) (acc : (Coord3 → Nat) × Nat)
    (h : ∀ d, acc.1 d ≤ acc.2) :
    ∀ d, (l.foldl (labelStep fg) acc).1 d ≤ (l.foldl (labelStep fg) acc).2 := by
  induction l generalizing acc with
  | nil => exact h
  | cons c l ih => exact ih _ (labelStep_bound fg acc h c)

/-- Every label assigned by `ndimage_label` is at most the returned
component count. -/
theorem ndimage_label_le (nt ny nx : Nat) (mask : Coord3 → Bool) (d : Coord3) :
    (ndimage_label nt ny nx mask).1 d ≤ (ndimage_label nt ny nx mask).2 :=
  foldl_labelStep_bound _ _ _ (fun _ => le_refl 0) d

/-- Membership in the `big_enough` list characterised by label range and
voxel count. -/
theorem mem_big_enough (nt ny nx : Nat) (lab : Coord3 → Nat) (n m x : Nat) :
    (big_enough nt ny nx lab n m).contains x = true ↔
      1 ≤ x ∧ x ≤ n ∧ m < countLabel nt ny nx lab x := by
  rw [List.elem_iff]
  simp only [big_enough, List.mem_filter, List.mem_map, List.mem_range,
    decide_eq_true_eq]
  constructor
  · rintro ⟨⟨a, ha, rfl⟩, hcount⟩
    exact ⟨Nat.succ_le_succ (Nat.zero_le a), Nat.succ_le_of_lt ha, hcount⟩
  · rintro ⟨h1, h2, hcount⟩
    exact ⟨⟨x - 1, by omega, by omega⟩, hcount⟩

/-- C3, amended: `label_regions` labels the mask under full 3D
26-connectivity and zeroes, in the `regions` field, every voxel whose
component (label class) has at most `min_size` voxels, while voxels in
larger components keep their labels; the surviving labels are listed in
`labels`; but `n_features` is the total number of connected components,
regardless of size (the count of components exceeding `min_size` is the
length of `labels`, not `n_features`). -/
theorem label_regions_spec (nt ny nx : Nat) (mask : Coord3 → Bool)
    (m : Nat) (c : Coord3) :
    (label_regions nt ny nx mask m).n_features =
      (ndimage_label nt ny nx mask).2 ∧
    (label_regions nt ny nx mask m).labels =
      big_enough nt ny nx (ndimage_label nt ny nx mask).1
        (ndimage_label nt ny nx mask).2 m ∧
    (countLabel nt ny nx (ndimage_label nt ny nx mask).1
        ((ndimage_label nt ny nx mask).1 c) ≤ m →
      (label_regions nt ny nx mask m).regions c = 0) ∧
    ((ndimage_label nt ny nx mask).1 c ≠ 0 →
      m < countLabel nt ny nx (ndimage_label nt ny nx mask).1
        ((ndimage_label nt ny nx mask).1 c) →
      (label_regions nt ny nx mask m).regions c =
        (ndimage_label nt ny nx mask).1 c) := by
  refine ⟨rfl, rfl, ?_, ?_⟩
  · intro hle
    show (if _ then _ else _) = 0
    rw [if_neg]
    intro hmem
    exact absurd (mem_big_enough _ _ _ _ _ _ _ |>.mp hmem).2.2 (not_lt.mpr hle)
  · intro hne hgt
    show (if _ then _ else _) = _
    rw [if_pos]
    exact (mem_big_enough _ _ _ _ _ _ _).mpr
      ⟨Nat.one_le_iff_ne_zero.mpr hne, ndimage_label_le nt ny nx mask c, hgt⟩

/-- Witness for C3 on the concrete two-component grid: the size-1 component
voxel at time 3 is zeroed in `regions`. -/
theorem label_regions_spec_witness :
    countLabel 4 1 1 (ndimage_label 4 1 1 maskTwoComponents).1
      ((ndimage_label 4 1 1 maskTwoComponents).1 (3, 0, 0)) ≤ 1 ∧
    (label_regions 4 1 1 maskTwoComponents 1).regions (3, 0, 0) = 0 :=
  ⟨by decide,
   (label_regions_spec 4 1 1 maskTwoComponents 1 (3, 0, 0)).2.2.1 (by decide)⟩

/-- Minimum of a list of reals (`np.min`; 0 on the empty list, on which
`np.min` would fail — callers apply it to whole-grid channel lists). -/
noncomputable def minListR : List ℝ → ℝ
  | [] => 0
  | x :: xs => xs.foldl min x

/-- `sobel_data[-1].min()` (workflow.py, line 246): the minimum of the
normalization channel (channel 3) of a gradient field over the grid. -/
noncomputable def minNorm (nt ny nx : Nat) (sobel : Fin 4 → Coord3 → ℝ) : ℝ :=
  minListR ((allCoords nt ny nx).map fun c => sobel 3 c)

/-- `apply_mask_to_edges` (workflow.py, lines 213–216): zero the first
`time_margin` and the last `time_margin` time steps of the edge field
(`edges[:time_margin] = 0; edges[-time_margin:] = 0`) and every cell the
validity mask marks invalid (`edges * ~mask`). -/
def apply_mask_to_edges (nt : Nat) (edges : Coord3 → Bool)
    (dmask : Coord3 → Bool) (time_margin : Nat) : Coord3 → Bool :=
  fun c =>
    (if c.1 < time_margin ∨ nt - time_margin ≤ c.1 then false else edges c) &&
      !dmask c

/-- Modelled from the spec: a voxel of the candidate mask whose
normalization-channel value lies below a reciprocal threshold `t`
(spec §4.7: magnitudes are internally compared against
`1/normalization-channel` values, so the physical signal `1/norm`
exceeds a physical threshold exactly when `norm` is below the passed
reciprocal).  Used for both the strong (`t = 1/upper`) and the weak
(`t = 1/lower`) voxel sets of the hysteresis kernel. -/
def thresholdVoxel (sobel : Fin 4 → Coord3 → ℝ) (mask : Coord3 → Bool)
    (t : ℝ) (c : Coord3) : Prop :=
  mask c = true ∧ sobel 3 c < t

/-- Modelled from the spec: the dual-threshold region growing of the
external compiled kernel `cp_double_threshold` (imported from
`hyper_canny`; spec §4.7): a voxel is in the output when it is strong
(candidate and above the upper physical bound, i.e. below the reciprocal
`a`), or weak (below the reciprocal `b`) and 26-connected, transitively,
to a strong voxel. -/
inductive HystReach (sobel : Fin 4 → Coord3 → ℝ) (mask : Coord3 → Bool)
    (a b : ℝ) : Coord3 → Prop where
  | strong (c : Coord3) : thresholdVoxel sobel mask a c →
      HystReach sobel mask a b c
  | step (d c : Coord3) : HystReach sobel mask a b d →
      adjacent26 d c = true → thresholdVoxel sobel mask b c →
      HystReach sobel mask a b c

/-- Modelled from the spec: the output mask of `cp_double_threshold` with
reciprocal thresholds `a` (passed third) and `b` (passed fourth). -/
def cp_double_threshold (sobel : Fin 4 → Coord3 → ℝ) (mask : Coord3 → Bool)
    (a b : ℝ) : Coord3 → Prop :=
  HystReach sobel mask a b

/-- `hysteresis_thresholding` (workflow.py, lines 202–210): derive the
physical `(lower, upper)` thresholds and call the kernel with `1/upper`
and `1/lower`, in that order. -/
noncomputable def hysteresis_thresholding (cfg : Config) (cal : Calibration)
    (sobel : Fin 4 → Coord3 → ℝ) (mask : Coord3 → Bool) : Coord3 → Prop :=
  cp_double_threshold sobel mask (1 / (get_thresholds cfg cal).2)
    (1 / (get_thresholds cfg cal).1)

/-- C9: `hysteresis_thresholding` derives the physical thresholds
`(lower, upper)` and invokes the dual-threshold region-growing kernel with
the reciprocals `1/upper` and `1/lower`, in that order; when the
thresholds are positive and ordered, the smaller physical threshold
corresponds to the larger comparison value (`1/upper ≤ 1/lower`). -/
theorem hysteresis_thresholding_inverts (cfg : Config) (cal : Calibration)
    (sobel : Fin 4 → Coord3 → ℝ) (mask : Coord3 → Bool)
    (h0 : 0 < (get_thresholds cfg cal).1)
    (hle : (get_thresholds cfg cal).1 ≤ (get_thresholds cfg cal).2) :
    hysteresis_thresholding cfg cal sobel mask =
      cp_double_threshold sobel mask (1 / (get_thresholds cfg cal).2)
        (1 / (get_thresholds cfg cal).1) ∧
    1 / (get_thresholds cfg cal).2 ≤ 1 / (get_thresholds cfg cal).1 :=
  ⟨rfl, one_div_le_one_div_of_le h0 hle⟩

/-- The configuration used by the concrete edge-detection instances:
3rd-quartile calibration, both references pi-control-max, both fractions
1. -/
noncomputable def cfgUnit : Config :=
  Config.mk 2 ThresholdRef.piControlMax ThresholdRef.piControlMax 1 1

/-- A calibration record with unit time quartiles and zero distance
quartiles, for which every combined magnitude quartile is 1. -/
noncomputable def calUnit : Calibration :=
  Calibration.mk (fun _ => 1) (fun _ => 0) (fun _ => 1) (fun _ => 1)

/-- Both thresholds derived from `cfgUnit`/`calUnit` equal 1. -/
theorem calUnit_thresholds : get_thresholds cfgUnit calUnit = (1, 1) := by
  simp only [get_thresholds, ref_value, mag_quartiles, get_calibration_factor,
    cfgUnit, calUnit]
  norm_num

/-- Witness for C9 at the concrete configuration `cfgUnit`/`calUnit`,
whose thresholds are `(1, 1)`. -/
theorem hysteresis_thresholding_inverts_witness :
    0 < (get_thresholds cfgUnit calUnit).1 ∧
    (get_thresholds cfgUnit calUnit).1 ≤ (get_thresholds cfgUnit calUnit).2 ∧
    (hysteresis_thresholding cfgUnit calUnit (fun _ _ => 0) (fun _ => false) =
      cp_double_threshold (fun _ _ => 0) (fun _ => false)
        (1 / (get_thresholds cfgUnit calUnit).2)
        (1 / (get_thresholds cfgUnit calUnit).1) ∧
    1 / (get_thresholds cfgUnit calUnit).2 ≤
      1 / (get_thresholds cfgUnit calUnit).1) :=
  ⟨by rw [calUnit_thresholds]; norm_num, by rw [calUnit_thresholds],
   hysteresis_thresholding_inverts cfgUnit calUnit (fun _ _ => 0)
     (fun _ => false) (by rw [calUnit_thresholds]; norm_num)
     (by rw [calUnit_thresholds])⟩

/-- The error raised at workflow.py, line 257, when the maximum observed
signal is below the upper threshold. -/
inductive PipelineError where
  | degenerateSignal
deriving DecidableEq

open Classical in
/-- `compute_canny_edges` (workflow.py, lines 229–268), from the point where
the physically-weighted gradient field exists.  The smoothing and the two
Sobel passes live in the external `filters.py`, and the thinning kernel in
the external `hyper_canny` package, so the physically-weighted gradient
field `sobel` and the non-maximum-suppression output `nms_mask` enter as
parameters.  The function then: raises when
`1 / sobel_data[-1].min() < upper` (lines 246–257); applies
`apply_mask_to_edges` with margin 10 to the candidate mask only when the
input data carries a validity mask (lines 263–264); and finally runs
hysteresis thresholding on the candidate mask (line 266). -/
noncomputable def compute_canny_edges (cfg : Config) (cal : Calibration)
    (nt ny nx : Nat) (sobel : Fin 4 → Coord3 → ℝ) (nms_mask : Coord3 → Bool)
    (dmask : Option (Coord3 → Bool)) : Except PipelineError (Coord3 → Prop) :=
  if 1 / minNorm nt ny nx sobel < (get_thresholds cfg cal).2 then
    Except.error PipelineError.degenerateSignal
  else
    Except.ok (hysteresis_thresholding cfg cal sobel
      (match dmask with
       | some dm => apply_mask_to_edges nt nms_mask dm 10
       | none => nms_mask))

/-- C4: `compute_canny_edges` aborts with the degenerate-signal error
exactly when the maximum observed signal — 1 divided by the minimum of the
normalization channel of the physically-weighted gradient field — is
strictly below the derived upper threshold; otherwise it proceeds and
produces an edge mask. -/
theorem compute_canny_edges_degenerate_iff (cfg : Config) (cal : Calibration)
    (nt ny nx : Nat) (sobel : Fin 4 → Coord3 → ℝ) (nms_mask : Coord3 → Bool)
    (dmask : Option (Coord3 → Bool)) :
    compute_canny_edges cfg cal nt ny nx sobel nms_mask dmask =
        Except.error PipelineError.degenerateSignal ↔
      1 / minNorm nt ny nx sobel < (get_thresholds cfg cal).2 := by
  unfold compute_canny_edges
  split
  · simp_all
  · simp_all

/-- Every voxel of the hysteresis output lies in the candidate mask (both
the strong and the weak voxel sets require the candidate mask, spec §4.7). -/
theorem hystReach_mask {sobel : Fin 4 → Coord3 → ℝ} {mask : Coord3 → Bool}
    {a b : ℝ} {c : Coord3} (h : HystReach sobel mask a b c) : mask c = true := by
  induction h with
  | strong c hc => exact hc.1
  | step d c _ _ hc _ => exact hc.1

/-- C5, amended: the zeroing happens only when the target Field carries a
validity mask, and it is applied to the candidate (non-maximum-suppression)
mask before hysteresis thresholding, with the hardcoded margin 10 — not
post-hoc to the hysteresis output; because the hysteresis output is
contained in its candidate mask, the final EdgeMask is nonetheless zero on
the first 10 and last 10 time steps and at every invalid cell.  Fields
without a validity mask receive no zeroing at all. -/
theorem compute_canny_edges_mask_zeroing (cfg : Config) (cal : Calibration)
    (nt ny nx : Nat) (sobel : Fin 4 → Coord3 → ℝ) (nms_mask : Coord3 → Bool)
    (dm : Coord3 → Bool) (c : Coord3)
    (hsig : ¬ 1 / minNorm nt ny nx sobel < (get_thresholds cfg cal).2)
    (hc : c.1 < 10 ∨ nt - 10 ≤ c.1 ∨ dm c = true) :
    compute_canny_edges cfg cal nt ny nx sobel nms_mask (some dm) =
      Except.ok (hysteresis_thresholding cfg cal sobel
        (apply_mask_to_edges nt nms_mask dm 10)) ∧
    ¬ hysteresis_thresholding cfg cal sobel
        (apply_mask_to_edges nt nms_mask dm 10) c := by
  constructor
  · unfold compute_canny_edges
    rw [if_neg hsig]
  · intro h
    have hm := hystReach_mask h
    unfold apply_mask_to_edges at hm
    rcases hc with h1 | h2 | h3
    · rw [if_pos (Or.inl h1)] at hm
      simp at hm
    · rw [if_pos (Or.inr h2)] at hm
      simp at hm
    · simp [h3] at hm

/-- A gradient field whose normalization channel is ½ everywhere and whose
derivative channels vanish. -/
noncomputable def sobelHalf : Fin 4 → Coord3 → ℝ :=
  fun ch _ => if ch = 3 then 1 / 2 else 0

/-- On the 3 × 1 × 1 grid the minimum of the normalization channel of
`sobelHalf` is ½. -/
theorem minNorm_sobelHalf : minNorm 3 1 1 sobelHalf = 1 / 2 := by
  show minListR ((allCoords 3 1 1).map fun c => sobelHalf 3 c) = 1 / 2
  have : (allCoords 3 1 1) = [(0, 0, 0), (1, 0, 0), (2, 0, 0)] := by decide
  rw [this]
  simp [minListR, sobelHalf]

/-- C5, counterexample: a run on an unmasked target Field (data is not a
masked array, so `apply_mask_to_edges` is skipped entirely,
workflow.py lines 263–264) in which the produced EdgeMask is true at time
index 0 — a leading time step well inside the margin of 10 the code uses
for masked data — so the EdgeMask is not zero on the leading time steps,
refuting the claim as stated. -/
theorem compute_canny_edges_margin_counterexample :
    compute_canny_edges cfgUnit calUnit 3 1 1 sobelHalf (fun _ => true)
        none =
      Except.ok (hysteresis_thresholding cfgUnit calUnit sobelHalf
        (fun _ => true)) ∧
    hysteresis_thresholding cfgUnit calUnit sobelHalf (fun _ => true)
      (0, 0, 0) := by
  constructor
  · unfold compute_canny_edges
    rw [if_neg]
    rw [minNorm_sobelHalf, calUnit_thresholds]
    norm_num
  · exact HystReach.strong (0, 0, 0)
      ⟨rfl, by rw [calUnit_thresholds]; norm_num [sobelHalf]⟩

/-- Witness for C5 (amended) on the 3 × 1 × 1 grid with an all-valid
validity mask: the leading time step 0 is zero in the final EdgeMask. -/
theorem compute_canny_edges_mask_zeroing_witness :
    (¬ 1 / minNorm 3 1 1 sobelHalf < (get_thresholds cfgUnit calUnit).2) ∧
    ((0 : Nat) < 10 ∨ 3 - 10 ≤ 0 ∨ (fun _ : Coord3 => false) (0, 0, 0) = true) ∧
    (compute_canny_edges cfgUnit calUnit 3 1 1 sobelHalf (fun _ => true)
        (some fun _ => false) =
      Except.ok (hysteresis_thresholding cfgUnit calUnit sobelHalf
        (apply_mask_to_edges 3 (fun _ => true) (fun _ => false) 10)) ∧
    ¬ hysteresis_thresholding cfgUnit calUnit sobelHalf
        (apply_mask_to_edges 3 (fun _ => true) (fun _ => false) 10)
        (0, 0, 0)) :=
  ⟨by rw [minNorm_sobelHalf, calUnit_thresholds]; norm_num,
   Or.inl (by norm_num),
   compute_canny_edges_mask_zeroing cfgUnit calUnit 3 1 1 sobelHalf
     (fun _ => true) (fun _ => false) (0, 0, 0)
     (by rw [minNorm_sobelHalf, calUnit_thresholds]; norm_num)
     (Or.inl (by norm_num))⟩

/-- Maximum of a list of reals (`np.max`; 0 on the empty list, on which
`np.max` would fail — callers apply it to whole-column or whole-map
lists). -/
noncomputable def maxListR : List ℝ → ℝ
  | [] => 0
  | x :: xs => xs.foldl max x

/-- Sum of a list of reals (`np.sum` / the accumulation inside means). -/
noncomputable def listSum (l : List ℝ) : ℝ :=
  l.foldr (· + ·) 0

/-- `np.mean` of a list of reals. -/
noncomputable def listMean (l : List ℝ) : ℝ :=
  listSum l / l.length

/-- The slope of `scipy.stats.linregress(xs, ys)`: the ordinary
least-squares slope `Σ (x - x̄)(y - ȳ) / Σ (x - x̄)²`. -/
noncomputable def linregressSlope (xs ys : List ℝ) : ℝ :=
  listSum (List.zipWith (fun x y => (x - listMean xs) * (y - listMean ys)) xs ys) /
    listSum (xs.map fun x => (x - listMean xs) ^ 2)

/-- The intercept of `scipy.stats.linregress(xs, ys)`:
`ȳ - slope · x̄`. -/
noncomputable def linregressIntercept (xs ys : List ℝ) : ℝ :=
  listMean ys - linregressSlope xs ys * listMean xs

/-- `np.nanstd` of a list of reals (default `ddof = 0`): the square root of
the mean squared deviation from the mean (NaNs do not exist over ℝ). -/
noncomputable def listStd (l : List ℝ) : ℝ :=
  Real.sqrt (listMean (l.map fun x => (x - listMean l) ^ 2))

/-- Sum of a list of naturals (`np.sum` on a mask chunk). -/
def natSum (l : List Nat) : Nat :=
  l.foldr (· + ·) 0

/-- Maximum of a list of naturals (`np.max`; 0 on the empty list —
callers guard for non-emptiness). -/
def maxNatList : List Nat → Nat
  | [] => 0
  | x :: xs => xs.foldl max x

/-- Minimum of a list of naturals (`np.min`; 0 on the empty list —
callers guard for non-emptiness). -/
def minNatList : List Nat → Nat
  | [] => 0
  | x :: xs => xs.foldl min x

/-- `np.where` on a 1D mask chunk: the indices of its nonzero entries. -/
def whereIdx (l : List Nat) : List Nat :=
  (List.range l.length).filter fun i => l.getD i 0 ≠ 0

/-- The inputs `compute_measure15j(mask, years, data, ...)` reads
(workflow.py, line 284): the number of time steps of `data`
(`np.size(data, axis=0)`), the edge mask, the physical year per time
step, and the target data field. -/
structure MeasureInput where
  T : Nat
  mask : Coord3 → Nat
  years : Nat → ℝ
  data : Coord3 → ℝ

/-- The chunk construction of `compute_measure15j` for one mask voxel
(workflow.py, lines 307–351), in the source's order of operations:
remove `cutoff_length` samples around the transition (lines 308–313),
trim each side to at most `chunk_max_length` samples nearest the
transition and re-center the years on the transition year
(lines 315–329), then, when other mask voxels lie inside a trimmed chunk,
cut that chunk `cutoff_length` samples past the nearest other edge,
emptying the data (but, as in the source, not the years) when nothing
remains (lines 333–351).  Returns `((years₁, data₁), (years₂, data₂))`
for the before- and after-chunks. -/
noncomputable def measureChunks (inp : MeasureInput) (cutoff maxlen : Nat)
    (v : Coord3) : (List ℝ × List ℝ) × (List ℝ × List ℝ) :=
  let t := v.1
  let idx1 := List.range (t - cutoff)
  let idx2 := (List.range (inp.T - (t + cutoff + 1))).map fun j =>
    t + cutoff + 1 + j
  let chunk1_data := idx1.map fun i => inp.data (i, v.2.1, v.2.2)
  let chunk2_data := idx2.map fun i => inp.data (i, v.2.1, v.2.2)
  let chunk1_years := idx1.map inp.years
  let chunk2_years := idx2.map inp.years
  let chunk1_mask := idx1.map fun i => inp.mask (i, v.2.1, v.2.2)
  let chunk2_mask := idx2.map fun i => inp.mask (i, v.2.1, v.2.2)
  let chunk1_start :=
    if maxlen < chunk1_data.length then chunk1_data.length - maxlen else 0
  let chunk2_end :=
    if maxlen < chunk2_data.length then maxlen else chunk2_data.length
  let c1d := chunk1_data.drop chunk1_start
  let c2d := chunk2_data.take chunk2_end
  let c1m := chunk1_mask.drop chunk1_start
  let c2m := chunk2_mask.take chunk2_end
  let c1y := (chunk1_years.drop chunk1_start).map fun a => a - inp.years t
  let c2y := (chunk2_years.take chunk2_end).map fun a => a - inp.years t
  let p1 :=
    if 0 < natSum c1m then
      let ie := maxNatList (whereIdx c1m)
      if c1d.length ≤ ie + cutoff then (c1y, ([] : List ℝ))
      else (c1y.drop (ie + cutoff), c1d.drop (ie + cutoff))
    else (c1y, c1d)
  let p2 :=
    if 0 < natSum c2m then
      let ie := minNatList (whereIdx c2m)
      if ie < cutoff then (c2y, ([] : List ℝ))
      else (c2y.take (ie - cutoff), c2d.take (ie - cutoff))
    else (c2y, c2d)
  (p1, p2)

open Classical in
/-- The score `compute_measure15j` assigns to one in-bounds mask voxel
(workflow.py, lines 354–375): 0 when either final chunk is shorter than
`chunk_min_length`; otherwise, with `mean_std` the average of the two
chunks' standard deviations, the score is 0 when `mean_std = 0` and the
chunk means agree, the sentinel `9e99` when `mean_std = 0` and they
differ, and `|intercept₁ - intercept₂| / mean_std` otherwise. -/
noncomputable def measureScore (inp : MeasureInput)
    (cutoff maxlen minlen : Nat) (v : Coord3) : ℝ :=
  let ch := measureChunks inp cutoff maxlen v
  if ch.1.2.length < minlen ∨ ch.2.2.length < minlen then 0
  else
    let mean_std := (listStd ch.1.2 + listStd ch.2.2) / 2
    if mean_std = 0 then
      if listMean ch.1.2 = listMean ch.2.2 then 0 else 9e99
    else
      |linregressIntercept ch.1.1 ch.1.2 -
        linregressIntercept ch.2.1 ch.2.2| / mean_std

/-- The 3D score field `measure15j_3d` of `compute_measure15j`
(workflow.py, lines 287–375): initialised to zero, and assigned the voxel
score at every voxel whose mask value is exactly 1 whose time index is at
least `cutoff_length` from both boundaries
(`index - cutoff_length >= 0 and index + cutoff_length + 1 <= np.size(data, axis=0)`,
line 300); the loop body depends only on the voxel itself, so the scan
over `np.where(mask)` is a pointwise definition. -/
noncomputable def measure15j_3d (inp : MeasureInput)
    (cutoff maxlen minlen : Nat) (v : Coord3) : ℝ :=
  if inp.mask v = 1 ∧ cutoff ≤ v.1 ∧ v.1 + cutoff + 1 ≤ inp.T then
    measureScore inp cutoff maxlen minlen v
  else 0

open Classical in
/-- The 2D output map `measure15j` of `compute_measure15j`
(workflow.py, lines 377–381): the maximum of the 3D field along time per
column (`np.max(measure15j_3d, axis=0)`), with NaNs replaced by 0 (vacuous
over ℝ) and every value exceeding 100 set to 0. -/
noncomputable def measure15j_2d (inp : MeasureInput)
    (cutoff maxlen minlen : Nat) (y x : Nat) : ℝ :=
  let m := maxListR ((List.range inp.T).map fun t =>
    measure15j_3d inp cutoff maxlen minlen (t, y, x))
  if 100 < m then 0 else m

/-- C8: every voxel whose time index is closer than `cutoff_length` to
either time boundary (`index - cutoff_length < 0` over the integers, or
`index + cutoff_length + 1 > T`) is assigned a score of exactly 0. -/
theorem measure15j_boundary_zero (inp : MeasureInput)
    (cutoff maxlen minlen : Nat) (v : Coord3)
    (h : v.1 < cutoff ∨ inp.T < v.1 + cutoff + 1) :
    measure15j_3d inp cutoff maxlen minlen v = 0 := by
  unfold measure15j_3d
  rw [if_neg]
  rintro ⟨-, h1, h2⟩
  rcases h with h | h <;> omega

/-- Witness for C8: on a 5-step series with `cutoff_length = 2`, the mask
voxel at time 0 scores 0. -/
theorem measure15j_boundary_zero_witness :
    ((0 : Nat) < 2 ∨ (5 : Nat) < 0 + 2 + 1) ∧
    measure15j_3d (MeasureInput.mk 5 (fun _ => 1) (fun i => (i : ℝ))
      (fun _ => 0)) 2 30 15 (0, 0, 0) = 0 :=
  ⟨Or.inl (by norm_num),
   measure15j_boundary_zero
     (MeasureInput.mk 5 (fun _ => 1) (fun i => (i : ℝ)) (fun _ => 0))
     2 30 15 (0, 0, 0) (Or.inl (by norm_num))⟩

/-- C7: for every edge voxel whose two regression chunks both pass the
minimum-length check, the assigned score is: 0 if the mean of the two
chunks' standard deviations is 0 and the two chunk means are equal, the
sentinel `9e99` if that mean standard deviation is 0 and the means differ,
and `|intercept_before - intercept_after| / mean_std` otherwise; and in
the returned 2D output map every value exceeding 100 (and every NaN,
vacuous over ℝ) is set to 0, so the map never exceeds 100. -/
theorem measure15j_score_spec (inp : MeasureInput)
    (cutoff maxlen minlen : Nat) (v : Coord3)
    (hmask : inp.mask v = 1)
    (hlo : cutoff ≤ v.1) (hhi : v.1 + cutoff + 1 ≤ inp.T)
    (hN1 : minlen ≤ (measureChunks inp cutoff maxlen v).1.2.length)
    (hN2 : minlen ≤ (measureChunks inp cutoff maxlen v).2.2.length) :
    measure15j_3d inp cutoff maxlen minlen v =
      (if (listStd (measureChunks inp cutoff maxlen v).1.2 +
            listStd (measureChunks inp cutoff maxlen v).2.2) / 2 = 0 then
        if listMean (measureChunks inp cutoff maxlen v).1.2 =
            listMean (measureChunks inp cutoff maxlen v).2.2 then 0
        else 9e99
      else
        |linregressIntercept (measureChunks inp cutoff maxlen v).1.1
            (measureChunks inp cutoff maxlen v).1.2 -
          linregressIntercept (measureChunks inp cutoff maxlen v).2.1
            (measureChunks inp cutoff maxlen v).2.2| /
          ((listStd (measureChunks inp cutoff maxlen v).1.2 +
            listStd (measureChunks inp cutoff maxlen v).2.2) / 2)) ∧
    (∀ y x : Nat, measure15j_2d inp cutoff maxlen minlen y x ≤ 100) := by
  constructor
  · unfold measure15j_3d
    rw [if_pos ⟨hmask, hlo, hhi⟩]
    unfold measureScore
    rw [if_neg]
    push_neg
    exact ⟨hN1, hN2⟩
  · intro y x
    unfold measure15j_2d
    dsimp only
    split
    · norm_num
    · next h => exact le_of_not_lt h

/-- A concrete 3-step series with a single mask voxel at time 1 over
constant-zero data. -/
noncomputable def inpSingleEdge : MeasureInput :=
  MeasureInput.mk 3 (fun v => if v.1 = 1 then 1 else 0) (fun i => (i : ℝ))
    (fun _ => 0)

/-- Witness for C7 at the concrete single-edge series, with
`cutoff_length = 0`, `chunk_max_length = 5`, `chunk_min_length = 1`. -/
theorem measure15j_score_spec_witness :
    inpSingleEdge.mask (1, 0, 0) = 1 ∧
    (0 : Nat) ≤ (1 : Nat) ∧ 1 + 0 + 1 ≤ inpSingleEdge.T ∧
    1 ≤ (measureChunks inpSingleEdge 0 5 (1, 0, 0)).1.2.length ∧
    1 ≤ (measureChunks inpSingleEdge 0 5 (1, 0, 0)).2.2.length ∧
    (measure15j_3d inpSingleEdge 0 5 1 (1, 0, 0) =
      (if (listStd (measureChunks inpSingleEdge 0 5 (1, 0, 0)).1.2 +
            listStd (measureChunks inpSingleEdge 0 5 (1, 0, 0)).2.2) / 2 = 0 then
        if listMean (measureChunks inpSingleEdge 0 5 (1, 0, 0)).1.2 =
            listMean (measureChunks inpSingleEdge 0 5 (1, 0, 0)).2.2 then 0
        else 9e99
      else
        |linregressIntercept (measureChunks inpSingleEdge 0 5 (1, 0, 0)).1.1
            (measureChunks inpSingleEdge 0 5 (1, 0, 0)).1.2 -
          linregressIntercept (measureChunks inpSingleEdge 0 5 (1, 0, 0)).2.1
            (measureChunks inpSingleEdge 0 5 (1, 0, 0)).2.2| /
          ((listStd (measureChunks inpSingleEdge 0 5 (1, 0, 0)).1.2 +
            listStd (measureChunks inpSingleEdge 0 5 (1, 0, 0)).2.2) / 2)) ∧
    ∀ y x : Nat, measure15j_2d inpSingleEdge 0 5 1 y x ≤ 100) :=
  ⟨by decide, by decide, by decide,
   by simp +decide [measureChunks, inpSingleEdge, natSum, List.range_succ],
   by simp +decide [measureChunks, inpSingleEdge, natSum, List.range_succ],
   measure15j_score_spec inpSingleEdge 0 5 1 (1, 0, 0) (by decide) (by decide)
     (by decide)
     (by simp +decide [measureChunks, inpSingleEdge, natSum, List.range_succ])
     (by simp +decide [measureChunks, inpSingleEdge, natSum, List.range_succ])⟩

/-- The raster order of the 2D columns `(lat, lon)` of a map. -/
def colCoords (ny nx : Nat) : List (Nat × Nat) :=
  (List.range ny).flatMap fun y => (List.range nx).map fun x => (y, x)

/-- The statistics dictionary entry of the report returned by
`make_report` (workflow.py, lines 836–842); the plot path entries are
products of the external plotting collaborators and are not modelled. -/
structure ReportStats where
  max_maxTgrad : ℝ
  max_abruptness : ℝ

open Classical in
/-- `make_report` (workflow.py, lines 728–854), reduced to its
report-suppression decision: the abruptness measures are computed with the
literal parameters `cutoff_length = 2`, `chunk_max_length = 30`,
`chunk_min_length = 15` (line 748), and when the maximum of the 2D clamped
abruptness map is strictly below 2 the function returns `None` before any
plot, statistic or output file is produced (lines 752–754).  The plotting
and NetCDF-writing calls are external collaborators; the maximum of the
`compute_maxTgrad` field enters as the parameter `maxTgrad_max`. -/
noncomputable def make_report (inp : MeasureInput) (ny nx : Nat)
    (maxTgrad_max : ℝ) : Option ReportStats :=
  let abruptness := fun y x => measure15j_2d inp 2 30 15 y x
  let maxab := maxListR ((colCoords ny nx).map fun p => abruptness p.1 p.2)
  if maxab < 2 then none
  else some (ReportStats.mk maxTgrad_max maxab)

/-- C10: `make_report` returns `None` — producing no report, statistics or
plots — exactly when the maximum of the 2D clamped abruptness map computed
with `cutoff_length = 2`, `chunk_max_length = 30`, `chunk_min_length = 15`
is strictly below 2. -/
theorem make_report_suppression (inp : MeasureInput) (ny nx : Nat)
    (maxTgrad_max : ℝ) :
    make_report inp ny nx maxTgrad_max = none ↔
      maxListR ((colCoords ny nx).map fun p =>
        measure15j_2d inp 2 30 15 p.1 p.2) < 2 := by
  unfold make_report
  dsimp only
  split
  · simp_all
  · simp_all
